import Mathlib

/-!
Verification development for `email_to_whatsapp.py`: a shallow embedding of the
mail-forwarding pipeline (fetch → decode → select → dispatch → acknowledge) and
proofs about it.  Python strings are modelled as `List Char`; the remote mailbox
and the messaging transport are modelled as oracles supplying the values the
external calls return.
-/

namespace EmailToWhatsapp

/-- Coerce a Lean string literal to the `List Char` representation used throughout. -/
def s (x : String) : List Char := x.data

/-- The whitespace characters Python's `str.strip()` removes (ASCII fragment:
space, tab, newline, carriage return, vertical tab, form feed). -/
def pyWS (c : Char) : Bool :=
  c = ' ' || c = '\t' || c = '\n' || c = '\r' || c = '\x0b' || c = '\x0c'

/-- Model of Python `str.strip()`: drop leading and trailing whitespace. -/
def pyStrip (l : List Char) : List Char :=
  ((l.dropWhile pyWS).reverse.dropWhile pyWS).reverse

/-- Model of Python `str.replace(a, b)` for single characters `a`, `b`. -/
def pyReplaceChar (a b : Char) (l : List Char) : List Char :=
  l.map (fun c => if c = a then b else c)

/-- The `preview` computation of `fetch_unseen` (line 84):
`(body.strip().replace("\r", " ").replace("\n", " "))[:400]`. -/
def preview (body : List Char) : List Char :=
  (pyReplaceChar '\n' ' ' (pyReplaceChar '\r' ' ' (pyStrip body))).take 400

/-- The preview as the spec words it: carriage returns and newlines collapsed to
single spaces, THEN leading/trailing whitespace trimmed, then truncated to 400
characters.  (The code trims first; the two orders are proved to agree.) -/
def specPreview (body : List Char) : List Char :=
  (pyStrip (pyReplaceChar '\n' ' ' (pyReplaceChar '\r' ' ' body))).take 400

/-- Model of Python `str.lower()` (ASCII operator tokens). -/
def pyLower (l : List Char) : List Char := l.map Char.toLower

/-- The `input(...).strip().lower()` normalization applied to every operator token. -/
def pyNorm (l : List Char) : List Char := pyLower (pyStrip l)

/-- Model of Python `str.startswith(p)`: `startsW p l` is true when `p` is an
initial segment of `l`. -/
def startsW : List Char → List Char → Bool
  | [], _ => true
  | _ :: _, [] => false
  | p :: ps, c :: cs => p == c && startsW ps cs

/-- Model of Python's `in` operator on strings: `hasSub needle hay`. -/
def hasSub (needle : List Char) : List Char → Bool
  | [] => needle.isEmpty
  | c :: t => startsW needle (c :: t) || hasSub needle t

/-- Outcome of one call to the messaging transport (§6 boundary): either a
delivery identifier (`msg.sid`) or a rejection (`TwilioRestException`) carrying
the transport's error message and the formatted `getattr(e, 'code', 'N/A')`. -/
inductive TwilioResult where
  | success (sid : List Char)
  | rejection (msg : List Char) (code : List Char)

/-- Function `send_whatsapp` (lines 98-104): attempts the transport call whose outcome
is `tr`; on success returns the delivery sid, and a `TwilioRestException` is
caught and encoded as the string `"ERROR: {e.msg} (code {code})"`.  (`text` is
the payload handed to the transport; the function's value does not depend on
it because the outcome is the transport's.) -/
def send_whatsapp (text : List Char) (tr : TwilioResult) : List Char :=
  match text, tr with
  | _, .success sid => sid
  | _, .rejection m c => s ("ERROR: ") ++ m ++ s (" (code ") ++ c ++ s (")")

/-- The normalized flat record built by `fetch_unseen` (lines 85-92).
`frm` stands for the Python dict key `"from"` (a Lean keyword). -/
structure MailRecord where
  id : Nat
  subject : List Char
  frm : List Char
  date : List Char
  body : List Char
  preview : List Char
deriving DecidableEq

/-- The text payload built in `send_batch` (lines 112-114): header block
(sender, subject, date) concatenated with the body truncated to 1000 chars. -/
def buildText (e : MailRecord) : List Char :=
  s ("📧 From: ") ++ e.frm ++ s ("\n💬 Subject: ") ++ e.subject ++ s ("\nDate: ")
    ++ e.date ++ s ("\n\n") ++ e.body.take 1000

/-- What the dispatch loop (lines 111-125) did for one record: the result
string of `send_whatsapp` and whether `mark_seen` was invoked for its id.
(`mark_seen` itself may fail; that failure is caught and only warned about, so
`marked` records the invocation.) -/
structure DispatchRec where
  recId : Nat
  result : List Char
  marked : Bool
deriving DecidableEq

/-- The loop body of `send_batch` from index `i` on.  `tr k` is the transport
outcome of the `k`-th `send_whatsapp` call.  A record is marked seen exactly
when the result string does not start with `"ERROR"` (the
`isinstance(result, str)` conjunct is always true, `send_whatsapp` returning a
string in both branches). -/
def sendLoop (tr : Nat → TwilioResult) (i : Nat) : List MailRecord → List DispatchRec
  | [] => []
  | e :: rest =>
    let result := send_whatsapp (buildText e) (tr i)
    { recId := e.id, result := result,
      marked := !(startsW (s ("ERROR")) result) } :: sendLoop tr (i + 1) rest

/-- Function `send_batch` (lines 106-125): dispatches the selected records in order with
no early abort; returns the per-record trace.  (`emails = []` only prints and
sends nothing.) -/
def send_batch (tr : Nat → TwilioResult) (emails : List MailRecord) : List DispatchRec :=
  sendLoop tr 0 emails

/-- The ids for which `mark_seen` was invoked, in invocation order. -/
def markedIds (ds : List DispatchRec) : List Nat :=
  (ds.filter (fun d => d.marked)).map (fun d => d.recId)

/-- The closed set of selection tokens of the SelectionPolicy (§4.3). -/
inductive SelToken where
  | LAST_ONE
  | LAST_THREE
  | ALL

/-- Python `xs[-k:]` for `k ≥ 1`: the final `min k n` elements. -/
def pySliceLast {α : Type} (l : List α) (k : Nat) : List α :=
  l.drop (l.length - k)

/-- The selection code of `interactive_loop` (lines 158-163):
`emails[-1:] if n >= 1 else []`, `emails[-3:] if n >= 1 else []`, `emails[:]`. -/
def select (emails : List MailRecord) (t : SelToken) : List MailRecord :=
  match t with
  | .LAST_ONE => if emails.length ≥ 1 then pySliceLast emails 1 else []
  | .LAST_THREE => if emails.length ≥ 1 then pySliceLast emails 3 else []
  | .ALL => emails

/-- The three operator tokens read in one pass of the loop body
(lines 148, 171, 177), as typed (normalization is applied where the code does). -/
structure OpInputs where
  choice : List Char
  confirm : List Char
  cont : List Char

/-- Observable outcome of one iteration of the `while` body of
`interactive_loop` (lines 131-180): the subset chosen (empty when none was),
the dispatch trace (empty when `send_batch` was not invoked or got `[]`), and
whether the loop continues to another iteration. -/
structure IterResult where
  selected : List MailRecord
  dispatched : List DispatchRec
  next : Bool
deriving DecidableEq

/-- One iteration of the `while True` body of `interactive_loop`
(lines 131-180), given the freshly fetched `emails`, the operator's inputs and
the transport oracle.  `q` breaks; `r` re-polls; with an empty set any other
token re-polls; `1`/`2`/`3` select, any other token is rejected and re-polls;
at the confirm prompt only (normalized) `y` dispatches; the continue prompt
keeps the loop alive only on `y`. -/
def loopIter (emails : List MailRecord) (inp : OpInputs) (tr : Nat → TwilioResult) :
    IterResult :=
  let choice := pyNorm inp.choice
  if choice = s ("q") then { selected := [], dispatched := [], next := false }
  else if choice = s ("r") then { selected := [], dispatched := [], next := true }
  else if emails.length = 0 then { selected := [], dispatched := [], next := true }
  else
    let selOpt : Option (List MailRecord) :=
      if choice = s ("1") then some (select emails .LAST_ONE)
      else if choice = s ("2") then some (select emails .LAST_THREE)
      else if choice = s ("3") then some (select emails .ALL)
      else none
    match selOpt with
    | none => { selected := [], dispatched := [], next := true }
    | some selected =>
      if pyNorm inp.confirm = s ("y") then
        { selected := selected, dispatched := send_batch tr selected,
          next := pyNorm inp.cont = s ("y") }
      else
        { selected := selected, dispatched := [],
          next := pyNorm inp.cont = s ("y") }

/-- The session's external collaborators: `fetchO k` is the unread set the
`k`-th poll returns (rebuilt on every poll), `inps k` the operator's tokens in
iteration `k`, `trs k` the transport outcomes of iteration `k`. -/
structure SessionOracles where
  fetchO : Nat → List MailRecord
  inps : Nat → OpInputs
  trs : Nat → Nat → TwilioResult

/-- Fuel-bounded trace of `interactive_loop` from iteration `k`: each entry
pairs the freshly fetched unread set with that iteration's outcome. -/
def session (o : SessionOracles) : Nat → Nat → List (List MailRecord × IterResult)
  | 0, _ => []
  | fuel + 1, k =>
    let emails := o.fetchO k
    let r := loopIter emails (o.inps k) (o.trs k)
    (emails, r) :: (if r.next then session o fuel (k + 1) else [])

/-- Model of a Python `bytes` object, abstracted by its decoding behaviour:
`decodeAs name` is `none` when `name` is not a registered codec (Python's
`bytes.decode` then raises `LookupError`, regardless of the `errors` handler),
and otherwise the sequence of per-position decode results under that codec,
where an inner `none` marks an undecodable byte (dropped under
`errors='ignore'`, replaced by U+FFFD under `errors='replace'`). -/
structure PyBytes where
  decodeAs : List Char → Option (List (Option Char))

/-- Model of `b.decode(codec, errors='ignore')`: outer `none` models a raised
`LookupError` on an unregistered codec name; otherwise undecodable positions
are dropped. -/
def pyDecodeIgnore (b : PyBytes) (codec : List Char) : Option (List Char) :=
  (b.decodeAs codec).map (fun toks => toks.filterMap id)

/-- The `(part, enc)` pairs of `email.header.decode_header`'s result: raw
bytes with an optional declared charset, or an already-decoded string. -/
abbrev HdrParts : Type := List ((PyBytes ⊕ List Char) × Option (List Char))

/-- The accumulation loop of `decode_mime` (lines 37-43): byte parts are
decoded with `enc or 'utf-8'` and `errors='ignore'`; `none` models an
exception escaping (no try/except surrounds `decode_mime`). -/
def decodeMimeParts : HdrParts → Option (List Char)
  | [] => some []
  | (Sum.inl b, enc) :: rest =>
    match pyDecodeIgnore b (enc.getD (s ("utf-8"))) with
    | none => none
    | some d => (decodeMimeParts rest).map (fun r => d ++ r)
  | (Sum.inr str, _) :: rest => (decodeMimeParts rest).map (fun r => str ++ r)

/-- Function `decode_mime` (lines 33-43).  The argument models the raw header value:
`none` for a falsy header (`if not s: return ""`); a present header is given
by its `decode_header` parse. -/
def decode_mime (hdr : Option HdrParts) : Option (List Char) :=
  match hdr with
  | none => some []
  | some parts => decodeMimeParts parts

/-- One part yielded by `msg.walk()`: its content type, raw
`Content-Disposition` header (`none` when absent), declared charset
(`get_content_charset()`, `none` when missing), and decoded payload
(`get_payload(decode=True)`, `none` modelling Python `None`). -/
structure MimePart where
  contentType : List Char
  dispo : Option (List Char)
  charset : Option (List Char)
  payload : Option PyBytes

/-- A parsed mail object as `get_body` sees it.  For a multipart message,
`parts` are the non-container parts `walk()` yields (container parts have
`multipart/*` content types and can never match `text/plain`/`text/html`). -/
inductive PyMsg where
  | multipart (parts : List MimePart)
  | single (charset : Option (List Char)) (payload : Option PyBytes)

/-- The `text/plain` test of line 51: content type `text/plain` and
`"attachment" not in str(part.get("Content-Disposition") or "")`. -/
def plainOk (p : MimePart) : Bool :=
  p.contentType == s ("text/plain") && !(hasSub (s ("attachment")) (p.dispo.getD []))

/-- Lines 52-53 / 57-58: decode a part's payload with
`get_content_charset() or "utf-8"` and `errors="ignore"`.  `none` models a
raised exception (`AttributeError` on a `None` payload, `LookupError` on an
unregistered charset). -/
def decodePart (p : MimePart) : Option (List Char) :=
  match p.payload with
  | none => none
  | some b => pyDecodeIgnore b (p.charset.getD (s ("utf-8")))

/-- Function `get_body` (lines 45-62): first non-attachment `text/plain` part, else
first `text/html` part, else `""` for multipart messages; the single payload
decoded directly otherwise. -/
def get_body (m : PyMsg) : Option (List Char) :=
  match m with
  | .multipart parts =>
    match parts.find? plainOk with
    | some p => decodePart p
    | none =>
      match parts.find? (fun q => q.contentType == s ("text/html")) with
      | some p => decodePart p
      | none => some []
  | .single charset payload =>
    match payload with
    | none => none
    | some b => pyDecodeIgnore b (charset.getD (s ("utf-8")))

/-- A parsed message as `fetch_unseen` consumes it: the three raw headers
(`msg.get(...)`; `none` models an absent/falsy header, giving `""`) and the
body structure. -/
structure ParsedMsg where
  subjectHdr : Option HdrParts
  fromHdr : Option HdrParts
  dateHdr : Option HdrParts
  bodyMsg : PyMsg

/-- What the per-id `imap.fetch` + parse of lines 72-78 produced. -/
inductive FetchOutcome where
  | fetchFail
  | parseFail
  | parsed (m : ParsedMsg)

/-- The per-id loop of `fetch_unseen` (lines 71-92): a failed fetch
(`res != "OK" or not data or data[0] is None`) or a parse exception skips the
id; otherwise the record is decoded and appended.  `none` models an uncaught
decode exception aborting `fetch_unseen` (the `try` of line 75 only covers
`message_from_bytes`).  The `get_body(msg) or ""` of line 83 is the identity
on every string `get_body` can return. -/
def fetchLoop (fr : Nat → FetchOutcome) : List Nat → Option (List MailRecord)
  | [] => some []
  | eid :: rest =>
    match fr eid with
    | .fetchFail => fetchLoop fr rest
    | .parseFail => fetchLoop fr rest
    | .parsed m =>
      match decode_mime m.subjectHdr, decode_mime m.fromHdr, decode_mime m.dateHdr,
            get_body m.bodyMsg with
      | some subj, some from_, some date, some body =>
        (fetchLoop fr rest).map (fun tail =>
          { id := eid, subject := subj, frm := from_, date := date,
            body := body, preview := preview body } :: tail)
      | _, _, _, _ => none

/-- Function `fetch_unseen` (lines 64-93): `search` is the IMAP search result (`none`
when `status != "OK"`, otherwise the id list), `fr` the per-id fetch/parse
oracle. -/
def fetch_unseen (search : Option (List Nat)) (fr : Nat → FetchOutcome) :
    Option (List MailRecord) :=
  match search with
  | none => some []
  | some ids => fetchLoop fr ids

/-- Concrete records used to evaluate the theorems on closed inputs. -/
def rec1 : MailRecord :=
  { id := 1, subject := s ("s1"), frm := s ("f1"), date := s ("d1"), body := s ("b1"),
    preview := s ("b1") }

def rec2 : MailRecord :=
  { id := 2, subject := s ("s2"), frm := s ("f2"), date := s ("d2"), body := s ("b2"),
    preview := s ("b2") }

def rec3 : MailRecord :=
  { id := 3, subject := s ("s3"), frm := s ("f3"), date := s ("d3"), body := s ("b3"),
    preview := s ("b3") }

/-- Transport oracle whose first call succeeds with a sid that happens to start
with `"ERROR"` and whose second call succeeds with an ordinary sid. -/
def trBug : Nat → TwilioResult := fun i =>
  if i = 0 then .success (s ("ERROR123")) else .success (s ("SM42"))

/-- Session oracles for the invalid-choice scenario: the mailbox gains a
message between the first and the second poll, and the operator types the
invalid token `x`. -/
def oInvalid : SessionOracles :=
  { fetchO := fun k => if k = 0 then [rec1] else [rec1, rec2],
    inps := fun _ => { choice := s ("x"), confirm := s ("y"), cont := s ("y") },
    trs := fun _ _ => .rejection (s ("m")) (s ("30008")) }

/-- Bytes whose only registered decoding is UTF-8 (as `"a"`). -/
def bbUnknown : PyBytes :=
  ⟨fun codec => if codec = s ("utf-8") then some [some 'a'] else none⟩

/-- Bytes that decode under UTF-8 to `a`, an undecodable byte, `b`. -/
def bbLossy : PyBytes :=
  ⟨fun codec => if codec = s ("utf-8") then some [some 'a', none, some 'b'] else none⟩

/-- Bytes decoding to `"hi"` under UTF-8. -/
def bPlain : PyBytes :=
  ⟨fun codec => if codec = s ("utf-8") then some [some 'h', some 'i'] else none⟩

/-- A `text/plain` part that is a declared attachment. -/
def partAttach : MimePart :=
  { contentType := s ("text/plain"), dispo := some (s ("attachment; filename=a.txt")),
    charset := none, payload := some bPlain }

/-- A `text/plain` body part. -/
def partPlain : MimePart :=
  { contentType := s ("text/plain"), dispo := none, charset := none,
    payload := some bPlain }

/-- A `text/html` body part. -/
def partHtml : MimePart :=
  { contentType := s ("text/html"), dispo := none, charset := none,
    payload := some bPlain }

/-- Concrete multipart layout: attachment before the body text, HTML last. -/
def wparts : List MimePart := [partAttach, partPlain, partHtml]

/-- Operator inputs that select ALL and then answer `n` at the confirm prompt. -/
def inpCancel : OpInputs := { choice := s ("3"), confirm := s ("n"), cont := s ("y") }

/-- Per-id oracle on which every `imap.fetch` fails. -/
def frFail : Nat → FetchOutcome := fun _ => .fetchFail

lemma dropWhile_map_comm (p : Char → Bool) (f : Char → Char)
    (hf : ∀ c, p (f c) = p c) (l : List Char) :
    (l.map f).dropWhile p = (l.dropWhile p).map f := by
  induction l with
  | nil => rfl
  | cons c t ih =>
    simp only [List.map_cons, List.dropWhile_cons, hf c]
    by_cases h : p c = true
    · simpa [h] using ih
    · simp [h]

lemma pyStrip_map_comm (f : Char → Char) (hf : ∀ c, pyWS (f c) = pyWS c)
    (l : List Char) : pyStrip (l.map f) = (pyStrip l).map f := by
  unfold pyStrip
  rw [dropWhile_map_comm pyWS f hf l, ← List.map_reverse,
    dropWhile_map_comm pyWS f hf, List.map_reverse]

lemma crlf_to_space_ws (c : Char) :
    pyWS (if c = '\n' then ' ' else if c = '\r' then ' ' else c) = pyWS c := by
  by_cases h1 : c = '\n'
  · subst h1; rfl
  · by_cases h2 : c = '\r'
    · subst h2; rfl
    · simp [h1, h2]

lemma pyReplaceChar_comp (l : List Char) :
    pyReplaceChar '\n' ' ' (pyReplaceChar '\r' ' ' l)
      = l.map (fun c => if c = '\n' then ' ' else if c = '\r' then ' ' else c) := by
  unfold pyReplaceChar
  rw [List.map_map]
  apply List.map_congr_left
  intro c _
  by_cases h1 : c = '\r'
  · subst h1; rfl
  · by_cases h2 : c = '\n'
    · subst h2; rfl
    · simp [h1, h2, Function.comp]

lemma mem_pyReplaceChar_ne (a b : Char) (hab : b ≠ a) (l : List Char) :
    ∀ c ∈ pyReplaceChar a b l, c ≠ a := by
  intro c hc
  unfold pyReplaceChar at hc
  obtain ⟨d, _, hd⟩ := List.mem_map.mp hc
  by_cases h : d = a
  · rw [if_pos h] at hd; rw [← hd]; exact hab
  · rw [if_neg h] at hd; rw [← hd]; exact h

lemma fetchLoop_preview (fr : Nat → FetchOutcome) (ids : List Nat)
    (recs : List MailRecord) (h : fetchLoop fr ids = some recs) :
    ∀ r ∈ recs, r.preview = preview r.body := by
  induction ids generalizing recs with
  | nil =>
    simp only [fetchLoop, Option.some.injEq] at h
    subst h
    intro r hr
    exact absurd hr (by simp)
  | cons eid rest ih =>
    simp only [fetchLoop] at h
    split at h
    · exact ih recs h
    · exact ih recs h
    · split at h
      · obtain ⟨tail, htail, hrec⟩ := Option.map_eq_some'.mp h
        subst hrec
        intro r hr
        rcases List.mem_cons.mp hr with hr | hr
        · subst hr; rfl
        · exact ih tail htail r hr
      · exact absurd h (by simp)

lemma fetch_unseen_preview (search : Option (List Nat)) (fr : Nat → FetchOutcome)
    (recs : List MailRecord) (h : fetch_unseen search fr = some recs) :
    ∀ r ∈ recs, r.preview = preview r.body := by
  cases search with
  | none =>
    simp only [fetch_unseen, Option.some.injEq] at h
    subst h
    intro r hr
    exact absurd hr (by simp)
  | some ids => exact fetchLoop_preview fr ids recs h

/-- C5 — For every message body, the preview equals the body with carriage
returns and newlines each turned into a single space, leading/trailing
whitespace trimmed, truncated to 400 characters; it has length ≤ 400 and
contains no carriage-return or newline character; and every record
`fetch_unseen` builds carries exactly this preview of its body. -/
theorem C5_preview (body : List Char) (search : Option (List Nat))
    (fr : Nat → FetchOutcome) (recs : List MailRecord)
    (h : fetch_unseen search fr = some recs) :
    (preview body = specPreview body ∧
      (preview body).length ≤ 400 ∧
      ∀ c ∈ preview body, c ≠ '\r' ∧ c ≠ '\n') ∧
    ∀ r ∈ recs, r.preview = preview r.body := by
  refine ⟨⟨?_, ?_, ?_⟩, fetch_unseen_preview search fr recs h⟩
  · unfold preview specPreview
    rw [pyReplaceChar_comp, pyReplaceChar_comp, pyStrip_map_comm _ crlf_to_space_ws]
  · unfold preview
    exact List.length_take_le 400 _
  · intro c hc
    unfold preview at hc
    have hc' := List.mem_of_mem_take hc
    constructor
    · obtain ⟨d, hd, hde⟩ := List.mem_map.mp (by simpa [pyReplaceChar] using hc' :
        c ∈ (pyReplaceChar '\r' ' ' (pyStrip body)).map (fun x => if x = '\n' then ' ' else x))
      by_cases h : d = '\n'
      · rw [if_pos h] at hde; rw [← hde]; decide
      · rw [if_neg h] at hde; rw [← hde]
        exact mem_pyReplaceChar_ne '\r' ' ' (by decide) _ d hd
    · exact mem_pyReplaceChar_ne '\n' ' ' (by decide) _ c hc'

theorem C5_preview_witness :
    (preview (s (" a\r\nb ")) = specPreview (s (" a\r\nb ")) ∧
      (preview (s (" a\r\nb "))).length ≤ 400 ∧
      ('a' ≠ '\r' ∧ 'a' ≠ '\n')) ∧
    preview (s (" a\r\nb ")) = s ("a  b") := by
  obtain ⟨⟨h1, h2, h3⟩, _⟩ :=
    C5_preview (s (" a\r\nb ")) none frFail [] rfl
  exact ⟨⟨h1, h2, h3 'a' (by decide)⟩, by decide⟩

lemma drop_length_sub_one {α : Type} (l : List α) (h : l ≠ []) :
    l.drop (l.length - 1) = [l.getLast h] := by
  induction l with
  | nil => exact absurd rfl h
  | cons a t ih =>
    cases t with
    | nil => rfl
    | cons b u =>
      have h1 : (a :: b :: u).length - 1 = u.length + 1 := by simp
      rw [h1, List.drop_succ_cons]
      have h2 : (b :: u).length - 1 = u.length := by simp
      rw [← h2, ih (List.cons_ne_nil b u)]
      exact congrArg (fun x => [x]) (List.getLast_cons (List.cons_ne_nil b u)).symm

/-- C2 — `LAST_ONE` selects exactly the last record (empty subset on an
empty list), `LAST_THREE` the final `min 3 n` records as a suffix (original
relative order), `ALL` the whole list unchanged. -/
theorem C2_selection (emails : List MailRecord) :
    (emails = [] → select emails .LAST_ONE = []) ∧
    (∀ h : emails ≠ [], select emails .LAST_ONE = [emails.getLast h]) ∧
    (select emails .LAST_THREE).length = min 3 emails.length ∧
    (select emails .LAST_THREE).IsSuffix emails ∧
    select emails .ALL = emails := by
  refine ⟨?_, ?_, ?_, ?_, rfl⟩
  · intro h; subst h; rfl
  · intro h
    have hlen : 1 ≤ emails.length := List.length_pos.mpr h
    show (if emails.length ≥ 1 then pySliceLast emails 1 else []) = _
    rw [if_pos hlen]
    exact drop_length_sub_one emails h
  · by_cases h : emails.length ≥ 1
    · show (if emails.length ≥ 1 then pySliceLast emails 3 else []).length = _
      rw [if_pos h]
      unfold pySliceLast
      rw [List.length_drop]
      omega
    · have h0 : emails.length = 0 := by omega
      show (if emails.length ≥ 1 then pySliceLast emails 3 else []).length = _
      rw [if_neg h]
      simp [h0]
  · by_cases h : emails.length ≥ 1
    · show (if emails.length ≥ 1 then pySliceLast emails 3 else []).IsSuffix emails
      rw [if_pos h]
      exact List.drop_suffix _ _
    · show (if emails.length ≥ 1 then pySliceLast emails 3 else []).IsSuffix emails
      rw [if_neg h]
      exact List.nil_suffix

theorem C2_selection_witness :
    select [rec1, rec2] .LAST_ONE = [rec2] ∧
    (select [rec1, rec2, rec3] .LAST_THREE).length = min 3 3 ∧
    select [rec1, rec2] .ALL = [rec1, rec2] := by
  refine ⟨?_, (C2_selection [rec1, rec2, rec3]).2.2.1,
    (C2_selection [rec1, rec2]).2.2.2.2⟩
  have h := (C2_selection [rec1, rec2]).2.1 (List.cons_ne_nil rec1 [rec2])
  exact h.trans rfl

lemma sendLoop_length (tr : Nat → TwilioResult) (i : Nat) (es : List MailRecord) :
    (sendLoop tr i es).length = es.length := by
  induction es generalizing i with
  | nil => rfl
  | cons e rest ih => simp [sendLoop, ih]

lemma sendLoop_get (tr : Nat → TwilioResult) (es : List MailRecord) (i j : Nat)
    (h : j < es.length) (hl : j < (sendLoop tr i es).length) :
    (sendLoop tr i es).get ⟨j, hl⟩ =
      { recId := (es.get ⟨j, h⟩).id,
        result := send_whatsapp (buildText (es.get ⟨j, h⟩)) (tr (i + j)),
        marked := !(startsW (s ("ERROR"))
          (send_whatsapp (buildText (es.get ⟨j, h⟩)) (tr (i + j)))) } := by
  induction es generalizing i j with
  | nil => exact absurd h (by simp)
  | cons e rest ih =>
    cases j with
    | zero => rfl
    | succ j' =>
      have h' : j' < rest.length := by simpa using h
      have hl' : j' < (sendLoop tr (i + 1) rest).length := by
        rw [sendLoop_length]; exact h'
      have hstep : (sendLoop tr i (e :: rest)).get ⟨j' + 1, hl⟩
          = (sendLoop tr (i + 1) rest).get ⟨j', hl'⟩ := rfl
      rw [hstep, ih (i + 1) j' h' hl']
      have harith : i + 1 + j' = i + (j' + 1) := by omega
      rw [harith]
      rfl

/-- C4 — The gateway send never raises to its caller: a transport rejection
is caught and returned as a `Failed` string carrying the transport's error
message and code, every transport outcome yields a return value, and a batch
is never shortened by a failed send. -/
theorem C4_send_never_raises (text m c : List Char) (tr : Nat → TwilioResult)
    (emails : List MailRecord) :
    send_whatsapp text (.rejection m c)
        = s ("ERROR: ") ++ m ++ s (" (code ") ++ c ++ s (")") ∧
    (∀ r : TwilioResult, ∃ out : List Char, send_whatsapp text r = out) ∧
    (send_batch tr emails).length = emails.length := by
  exact ⟨rfl, fun r => ⟨_, rfl⟩, sendLoop_length tr 0 emails⟩

/-- C9 — In the dispatch loop a record is marked seen iff the send result
does not start with `"ERROR"`: rejections are encoded as `"ERROR: ..."`
strings, successes as the raw delivery sid, and a genuine sid that begins with
`"ERROR"` is treated as a failure, leaving its record unseen. -/
theorem C9_mark_by_string_test (tr : Nat → TwilioResult) (emails : List MailRecord)
    (j : Nat) (h : j < emails.length) :
    ∃ hl : j < (send_batch tr emails).length,
      ((send_batch tr emails).get ⟨j, hl⟩).marked
          = !(startsW (s ("ERROR")) ((send_batch tr emails).get ⟨j, hl⟩).result) ∧
      ((send_batch tr emails).get ⟨j, hl⟩).recId = (emails.get ⟨j, h⟩).id ∧
      ((send_batch tr emails).get ⟨j, hl⟩).result
          = send_whatsapp (buildText (emails.get ⟨j, h⟩)) (tr j) ∧
      (∀ m c, tr j = .rejection m c →
          startsW (s ("ERROR")) ((send_batch tr emails).get ⟨j, hl⟩).result = true) ∧
      (∀ sid, tr j = .success sid →
          ((send_batch tr emails).get ⟨j, hl⟩).result = sid) ∧
      (∀ sid, tr j = .success sid → startsW (s ("ERROR")) sid = true →
          ((send_batch tr emails).get ⟨j, hl⟩).marked = false) := by
  have hl : j < (send_batch tr emails).length := by
    show j < (sendLoop tr 0 emails).length
    rw [sendLoop_length]; exact h
  have hget0 := sendLoop_get tr emails 0 j h hl
  have h0 : (0 : Nat) + j = j := Nat.zero_add j
  rw [h0] at hget0
  have hget : (send_batch tr emails).get ⟨j, hl⟩ =
      { recId := (emails.get ⟨j, h⟩).id,
        result := send_whatsapp (buildText (emails.get ⟨j, h⟩)) (tr j),
        marked := !(startsW (s ("ERROR"))
          (send_whatsapp (buildText (emails.get ⟨j, h⟩)) (tr j))) } := hget0
  refine ⟨hl, ?_, ?_, ?_, ?_, ?_, ?_⟩
  · rw [hget]
  · rw [hget]
  · rw [hget]
  · intro m c hc
    rw [hget, hc]
    rfl
  · intro sid hsid
    rw [hget, hsid]
    rfl
  · intro sid hsid hsw
    rw [hget, hsid]
    show (!(startsW (s ("ERROR")) sid)) = false
    rw [hsw]
    rfl

theorem C9_witness :
    ((send_batch trBug [rec1, rec2]).get ⟨0, by decide⟩).marked = false := by
  obtain ⟨hl, _, _, _, _, _, hfin⟩ :=
    C9_mark_by_string_test trBug [rec1, rec2] 0 (by decide)
  exact hfin (s ("ERROR123")) rfl (by decide)

/-- C1 — Evaluation of the dispatch loop at the failing input: the
transport delivers both records (outcomes `success "ERROR123"` and
`success "SM42"`), yet the first record is not marked seen because the code
distinguishes success from failure only by the `"ERROR"` string test; the
loop still continues to the second record, which is marked.  The spec's rule
"on `Delivered`, call `mark_seen`" is violated for the first record. -/
theorem C1_delivered_unmarked :
    send_batch trBug [rec1, rec2]
      = [{ recId := 1, result := s ("ERROR123"), marked := false },
         { recId := 2, result := s ("SM42"), marked := true }] ∧
    markedIds (send_batch trBug [rec1, rec2]) = [2] := by
  exact ⟨rfl, rfl⟩

/-- C7 (counterexample) — After the invalid token `x` the session does not
re-prompt over the same unread set: it re-polls, and when the mailbox changed
between the polls the second prompt presents a different set ([rec1, rec2]
instead of [rec1]).  Nothing is dispatched in either iteration. -/
theorem C7_counterexample :
    (session oInvalid 2 0).map Prod.fst = [[rec1], [rec1, rec2]] ∧
    (session oInvalid 2 0).map (fun p => p.2.dispatched) = [[], []] ∧
    [rec1, rec2] ≠ [rec1] := by
  refine ⟨?_, ?_, ?_⟩ <;> decide

/-- C7 (amended) — An operator token outside {1, 2, 3, r, q} is rejected as
an invalid choice rather than silently mapped to a default selection, nothing
is dispatched, and the session returns to polling: the next iteration
re-fetches the unread set (`fetchO (k+1)`) and re-prompts over it. -/
theorem C7_invalid_choice (o : SessionOracles) (fuel k : Nat)
    (h : pyNorm (o.inps k).choice ∉ [s ("1"), s ("2"), s ("3"), s ("r"), s ("q")]) :
    loopIter (o.fetchO k) (o.inps k) (o.trs k)
        = { selected := [], dispatched := [], next := true } ∧
    session o (fuel + 2) k
        = (o.fetchO k, { selected := [], dispatched := [], next := true })
            :: session o (fuel + 1) (k + 1) := by
  simp only [List.mem_cons, List.not_mem_nil, or_false, not_or] at h
  obtain ⟨h1, h2, h3, h4, h5⟩ := h
  have hiter : loopIter (o.fetchO k) (o.inps k) (o.trs k)
      = { selected := [], dispatched := [], next := true } := by
    simp only [loopIter]
    rw [if_neg h5, if_neg h4]
    by_cases h0 : (o.fetchO k).length = 0
    · rw [if_pos h0]
    · rw [if_neg h0]
      simp only [if_neg h1, if_neg h2, if_neg h3]
  refine ⟨hiter, ?_⟩
  simp [session, hiter]

theorem C7_invalid_choice_witness :
    loopIter (oInvalid.fetchO 0) (oInvalid.inps 0) (oInvalid.trs 0)
      = { selected := [], dispatched := [], next := true } :=
  (C7_invalid_choice oInvalid 0 0 (by decide)).1

/-- C8 — When the (normalized) confirm token is anything but `y`, the
dispatch is cancelled for every selected subset: `send_batch` is never entered
(no gateway send occurs: the trace of send calls is empty) and no `mark_seen`
invocation happens, so mailbox state is unchanged. -/
theorem C8_cancel (emails : List MailRecord) (inp : OpInputs)
    (tr : Nat → TwilioResult) (h : pyNorm inp.confirm ≠ s ("y")) :
    (loopIter emails inp tr).dispatched = [] ∧
    markedIds (loopIter emails inp tr).dispatched = [] := by
  have hd : (loopIter emails inp tr).dispatched = [] := by
    simp only [loopIter]
    by_cases hq : pyNorm inp.choice = s ("q")
    · rw [if_pos hq]
    · rw [if_neg hq]
      by_cases hr : pyNorm inp.choice = s ("r")
      · rw [if_pos hr]
      · rw [if_neg hr]
        by_cases h0 : emails.length = 0
        · rw [if_pos h0]
        · rw [if_neg h0]
          by_cases c1 : pyNorm inp.choice = s ("1")
          · simp only [if_pos c1, if_neg h]
          · simp only [if_neg c1]
            by_cases c2 : pyNorm inp.choice = s ("2")
            · simp only [if_pos c2, if_neg h]
            · simp only [if_neg c2]
              by_cases c3 : pyNorm inp.choice = s ("3")
              · simp only [if_pos c3, if_neg h]
              · simp only [if_neg c3]
  exact ⟨hd, by rw [hd]; rfl⟩

theorem C8_cancel_witness :
    (loopIter [rec1] inpCancel trBug).dispatched = [] :=
  (C8_cancel [rec1] inpCancel trBug (by decide)).1

lemma fetchLoop_skip (fr : Nat → FetchOutcome) (eid : Nat)
    (h : fr eid = .fetchFail ∨ fr eid = .parseFail) (pre post : List Nat) :
    fetchLoop fr (pre ++ eid :: post) = fetchLoop fr (pre ++ post) := by
  induction pre with
  | nil =>
    simp only [List.nil_append]
    cases h with
    | inl h => simp [fetchLoop, h]
    | inr h => simp [fetchLoop, h]
  | cons a t ih =>
    simp only [List.cons_append, fetchLoop]
    have ih' : fetchLoop fr (t.append (eid :: post)) = fetchLoop fr (t.append post) := ih
    rw [ih']

lemma find?_first {α : Type} (p : α → Bool) (l : List α) (i : Nat) (h : i < l.length)
    (hp : p (l.get ⟨i, h⟩) = true)
    (hmin : ∀ j (hj : j < i), p (l.get ⟨j, Nat.lt_trans hj h⟩) = false) :
    l.find? p = some (l.get ⟨i, h⟩) := by
  induction l generalizing i with
  | nil => exact absurd h (by simp)
  | cons a t ih =>
    cases i with
    | zero => exact List.find?_cons_of_pos t hp
    | succ i' =>
      have ha : p a = false := hmin 0 (Nat.succ_pos i')
      rw [List.find?_cons_of_neg t (by simp [ha])]
      have h' : i' < t.length := by simpa using h
      exact ih i' h' hp (fun j hj => hmin (j + 1) (Nat.succ_lt_succ hj))

/-- C6 — Body extraction priority: for a multipart message the body is the
decoded text of the first `text/plain` part that is not a declared attachment;
failing that, of the first `text/html` part; a multipart message with neither
yields the empty string; a non-multipart message has its single payload
decoded directly. -/
theorem C6_body_priority (parts : List MimePart) (i : Nat) (hi : i < parts.length)
    (cs : Option (List Char)) (b : PyBytes) :
    (plainOk (parts.get ⟨i, hi⟩) = true →
      (∀ j (hj : j < i), plainOk (parts.get ⟨j, Nat.lt_trans hj hi⟩) = false) →
      get_body (.multipart parts) = decodePart (parts.get ⟨i, hi⟩)) ∧
    ((∀ p ∈ parts, plainOk p = false) →
      (parts.get ⟨i, hi⟩).contentType = s ("text/html") →
      (∀ j (hj : j < i), (parts.get ⟨j, Nat.lt_trans hj hi⟩).contentType ≠ s ("text/html")) →
      get_body (.multipart parts) = decodePart (parts.get ⟨i, hi⟩)) ∧
    ((∀ p ∈ parts, plainOk p = false) →
      (∀ p ∈ parts, p.contentType ≠ s ("text/html")) →
      get_body (.multipart parts) = some []) ∧
    get_body (.single cs (some b)) = pyDecodeIgnore b (cs.getD (s ("utf-8"))) ∧
    get_body (.single cs none) = none := by
  refine ⟨?_, ?_, ?_, rfl, rfl⟩
  · intro hp hmin
    simp only [get_body]
    rw [find?_first plainOk parts i hi hp hmin]
  · intro hnone hhtml hmin
    have hfp : parts.find? plainOk = none :=
      List.find?_eq_none.mpr (fun p hp => by simp [hnone p hp])
    have hp' : (fun q : MimePart => q.contentType == s ("text/html"))
        (parts.get ⟨i, hi⟩) = true := beq_iff_eq.mpr hhtml
    have hmin' : ∀ j (hj : j < i),
        (fun q : MimePart => q.contentType == s ("text/html"))
          (parts.get ⟨j, Nat.lt_trans hj hi⟩) = false :=
      fun j hj => beq_eq_false_iff_ne.mpr (hmin j hj)
    simp only [get_body]
    rw [hfp, find?_first _ parts i hi hp' hmin']
  · intro hnone hnohtml
    have hfp : parts.find? plainOk = none :=
      List.find?_eq_none.mpr (fun p hp => by simp [hnone p hp])
    have hfh : parts.find? (fun q : MimePart => q.contentType == s ("text/html")) = none :=
      List.find?_eq_none.mpr (fun p hp => by simp [hnohtml p hp])
    simp only [get_body]
    rw [hfp, hfh]

theorem C6_body_priority_witness :
    get_body (.multipart wparts) = decodePart partPlain ∧
    get_body (.single none (some bPlain)) = pyDecodeIgnore bPlain (s ("utf-8")) := by
  have h := C6_body_priority wparts 1 (by decide) none bPlain
  exact ⟨h.1 (by decide) (by decide), h.2.2.2.1⟩

/-- C3 (counterexample) — Decoding can raise: a declared charset that is
not a registered codec makes `decode_mime` raise a `LookupError` instead of
falling back to UTF-8 (first conjunct; the same bytes decode fine when the
charset is missing, second conjunct); and undecodable bytes are dropped by
`errors='ignore'`, not replaced with U+FFFD (third and fourth conjuncts). -/
theorem C3_counterexample :
    decode_mime (some [(Sum.inl bbUnknown, some (s ("x-unknown")))]) = none ∧
    decode_mime (some [(Sum.inl bbUnknown, none)]) = some (s ("a")) ∧
    decode_mime (some [(Sum.inl bbLossy, none)]) = some (s ("ab")) ∧
    decode_mime (some [(Sum.inl bbLossy, none)]) ≠ some ['a', '�', 'b'] := by
  refine ⟨?_, ?_, ?_, ?_⟩ <;> decide

/-- C3 (amended) — A message that cannot be parsed is silently skipped from
the unread set; header decoding raises no error provided every declared
charset is a registered codec (and a falsy header decodes to the empty
string); a missing charset falls back to UTF-8; and undecodable bytes are
dropped (lossily ignored) rather than raising. -/
theorem C3_decode_robust (parts : HdrParts) (b : PyBytes)
    (toks : List (Option Char)) (codec : List Char) (fr : Nat → FetchOutcome)
    (eid : Nat) (pre post : List Nat)
    (hreg : ∀ pe ∈ parts, ∀ bb : PyBytes, pe.1 = Sum.inl bb →
        (bb.decodeAs (pe.2.getD (s ("utf-8")))).isSome = true)
    (hskip : fr eid = .parseFail) :
    (decodeMimeParts parts).isSome = true ∧
    decode_mime none = some [] ∧
    decodeMimeParts [(Sum.inl b, none)] = pyDecodeIgnore b (s ("utf-8")) ∧
    (b.decodeAs codec = some toks →
      pyDecodeIgnore b codec = some (toks.filterMap id)) ∧
    fetch_unseen (some (pre ++ eid :: post)) fr
        = fetch_unseen (some (pre ++ post)) fr := by
  refine ⟨?_, rfl, ?_, ?_, ?_⟩
  · induction parts with
    | nil => rfl
    | cons pe rest ih =>
      obtain ⟨part, enc⟩ := pe
      cases part with
      | inl bb =>
        have hbb := hreg (Sum.inl bb, enc) (by simp) bb rfl
        obtain ⟨toks', htoks⟩ := Option.isSome_iff_exists.mp hbb
        have hres := ih (fun pe hpe => hreg pe (List.mem_cons_of_mem _ hpe))
        obtain ⟨r, hr⟩ := Option.isSome_iff_exists.mp hres
        simp only [decodeMimeParts, pyDecodeIgnore, htoks, hr]
        rfl
      | inr str =>
        have hres := ih (fun pe hpe => hreg pe (List.mem_cons_of_mem _ hpe))
        obtain ⟨r, hr⟩ := Option.isSome_iff_exists.mp hres
        simp only [decodeMimeParts, hr]
        rfl
  · cases hdec : pyDecodeIgnore b (s ("utf-8")) with
    | none => simp [decodeMimeParts, hdec]
    | some d => simp [decodeMimeParts, hdec]
  · intro htoks
    simp [pyDecodeIgnore, htoks]
  · exact fetchLoop_skip fr eid (Or.inr hskip) pre post

theorem C3_decode_robust_witness :
    (decodeMimeParts [(Sum.inl bbUnknown, none)]).isSome = true := by
  have h := C3_decode_robust [(Sum.inl bbUnknown, none)] bbUnknown [] (s ("utf-8"))
    (fun _ => .parseFail) 0 [] []
    (by
      intro pe hpe bb hbb
      rcases List.mem_singleton.mp hpe with rfl
      cases hbb
      decide)
    rfl
  exact h.1

/-- C10 — `fetch_unseen` returns the empty list when the IMAP search does
not report OK; it silently skips an id whose per-message fetch fails; and a
transport-level retrieval failure is indistinguishable at the interface from a
genuinely empty unread set. -/
theorem C10_fetch_failures (fr : Nat → FetchOutcome) (eid : Nat)
    (pre post : List Nat) (h : fr eid = .fetchFail) :
    fetch_unseen none fr = some [] ∧
    fetch_unseen none fr = fetch_unseen (some []) fr ∧
    fetch_unseen (some (pre ++ eid :: post)) fr
        = fetch_unseen (some (pre ++ post)) fr := by
  exact ⟨rfl, rfl, fetchLoop_skip fr eid (Or.inl h) pre post⟩

theorem C10_fetch_failures_witness :
    fetch_unseen (some [5]) frFail = fetch_unseen (some []) frFail :=
  (C10_fetch_failures frFail 5 [] [] rfl).2.2

end EmailToWhatsapp
